import Mathlib

/-!
A shallow embedding of the goose generic HTTP request/response pipeline
(package `http`: `Client`, `RequestData`, `JsonRequest`, `BinaryRequest`,
`sendRequest`, `ErrorResponse`, `ErrorWrapper`) together with theorems
checking the natural-language specification against it.

Modelling conventions:
- Byte sequences (request/response bodies) are Lean `String`s (Go strings
  are byte sequences; the code converts `[]byte` to `string` freely).
- `http.Header` is an ordered association list from canonical header keys
  to value lists; `Header.Add` appends a value to the key's slot.
- The underlying transport (`http.Client.Do`) is an explicit function
  parameter `DoFn`; a transport-level failure is `Except.error`.
- JSON values are an inductive `Json`; `encoding/json.Unmarshal` into the
  error envelope is modelled by a concrete recursive-descent parser over
  the body characters followed by a field-wise decoder mirroring Go's
  struct decoding (unknown fields ignored, `null` leaves a field as-is,
  mismatched field types fail, duplicate keys decode in order).  The
  parser covers the JSON subset exercised by the code (no \u escapes;
  non-integral number literals are kept as raw `decimal` literals, which
  fail to decode into the `int` code field exactly as in Go).
- Response bodies are pure values, so `ioutil.ReadAll` of a response body
  always succeeds; the read-failure branch of `sendRequest` is therefore
  not represented.  `http.NewRequest` is modelled as total (URL parsing
  is outside the embedded code), so the "failed creating the request"
  branch is likewise unreachable in the model.
-/

namespace Goose

/-! ## JSON values and the wire parser -/

inductive Json where
  | null : Json
  | bool (b : Bool) : Json
  | num (n : Int) : Json
  | decimal (raw : String) : Json
  | str (s : String) : Json
  | arr (elems : List Json) : Json
  | obj (fields : List (String × Json)) : Json
deriving Repr

def skipWs : List Char → List Char
  | [] => []
  | c :: cs => if c = ' ' || c = '\t' || c = '\n' || c = '\r' then skipWs cs else c :: cs

/-- Characters of a JSON string literal after the opening quote, handling
the escape sequences the decoder understands. -/
def parseStringChars : List Char → Option (List Char × List Char)
  | [] => none
  | '\"' :: rest => some ([], rest)
  | '\\' :: e :: rest =>
    match (match e with
           | '\"' => some '\"'
           | '\\' => some '\\'
           | '/' => some '/'
           | 'n' => some '\n'
           | 't' => some '\t'
           | 'r' => some '\r'
           | 'b' => some (Char.ofNat 8)
           | 'f' => some (Char.ofNat 12)
           | _ => none) with
    | some c => (parseStringChars rest).map (fun p => (c :: p.1, p.2))
    | none => none
  | c :: rest => (parseStringChars rest).map (fun p => (c :: p.1, p.2))

def takeDigits : List Char → (List Char × List Char)
  | [] => ([], [])
  | c :: cs =>
    if c.isDigit then
      let p := takeDigits cs
      (c :: p.1, p.2)
    else ([], c :: cs)

def digitsToNat (ds : List Char) : Nat :=
  ds.foldl (fun n c => n * 10 + (c.toNat - '0'.toNat)) 0

def isNumTail (c : Char) : Bool :=
  c.isDigit || c = '.' || c = 'e' || c = 'E' || c = '+' || c = '-'

def takeNumTail : List Char → (List Char × List Char)
  | [] => ([], [])
  | c :: cs =>
    if isNumTail c then
      let p := takeNumTail cs
      (c :: p.1, p.2)
    else ([], c :: cs)

def mkIntJson (neg : Bool) (ds : List Char) : Json :=
  let n : Int := Int.ofNat (digitsToNat ds)
  Json.num (if neg then -n else n)

def finishNum (neg : Bool) (ds : List Char) : List Char → Option (Json × List Char)
  | [] => some (mkIntJson neg ds, [])
  | c :: cs =>
    if c = '.' || c = 'e' || c = 'E' then
      let p := takeNumTail (c :: cs)
      some (Json.decimal ⟨(if neg then ['-'] else []) ++ ds ++ p.1⟩, p.2)
    else some (mkIntJson neg ds, c :: cs)

def parseNumber (s : List Char) : Option (Json × List Char) :=
  match s with
  | '-' :: rest =>
    let p := takeDigits rest
    if p.1.isEmpty then none else finishNum true p.1 p.2
  | _ =>
    let p := takeDigits s
    if p.1.isEmpty then none else finishNum false p.1 p.2

mutual

def parseValue : Nat → List Char → Option (Json × List Char)
  | 0, _ => none
  | fuel + 1, s =>
    match skipWs s with
    | 'n' :: 'u' :: 'l' :: 'l' :: rest => some (Json.null, rest)
    | 't' :: 'r' :: 'u' :: 'e' :: rest => some (Json.bool true, rest)
    | 'f' :: 'a' :: 'l' :: 's' :: 'e' :: rest => some (Json.bool false, rest)
    | '\"' :: rest => (parseStringChars rest).map (fun p => (Json.str ⟨p.1⟩, p.2))
    | '[' :: rest =>
      (match skipWs rest with
       | ']' :: rest2 => some (Json.arr [], rest2)
       | _ => parseElems fuel rest [])
    | '{' :: rest =>
      (match skipWs rest with
       | '}' :: rest2 => some (Json.obj [], rest2)
       | _ => parseMembers fuel rest [])
    | s1 => parseNumber s1

def parseElems : Nat → List Char → List Json → Option (Json × List Char)
  | 0, _, _ => none
  | fuel + 1, s, acc =>
    match parseValue fuel s with
    | none => none
    | some (v, rest) =>
      match skipWs rest with
      | ',' :: rest2 => parseElems fuel rest2 (acc ++ [v])
      | ']' :: rest2 => some (Json.arr (acc ++ [v]), rest2)
      | _ => none

def parseMembers : Nat → List Char → List (String × Json) → Option (Json × List Char)
  | 0, _, _ => none
  | fuel + 1, s, acc =>
    match skipWs s with
    | '\"' :: rest =>
      (match parseStringChars rest with
       | none => none
       | some (kcs, rest2) =>
         match skipWs rest2 with
         | ':' :: rest3 =>
           (match parseValue fuel rest3 with
            | none => none
            | some (v, rest4) =>
              match skipWs rest4 with
              | ',' :: rest5 => parseMembers fuel rest5 (acc ++ [(⟨kcs⟩, v)])
              | '}' :: rest5 => some (Json.obj (acc ++ [(⟨kcs⟩, v)]), rest5)
              | _ => none)
         | _ => none)
    | _ => none

end

/-- The top-level JSON parse used to model `encoding/json.Unmarshal`:
one value, optionally surrounded by whitespace, nothing trailing. -/
def parseJson (s : String) : Option Json :=
  match parseValue (s.length + 1) s.data with
  | some (j, rest) => if (skipWs rest).isEmpty then some j else none
  | none => none

/-! ## The error envelope (`ErrorResponse` / `ErrorWrapper`) -/

structure ErrorResponse where
  message : String
  code : Int
  title : String
deriving Repr, DecidableEq

/-- `(*ErrorResponse).Error()` of the source. -/
def ErrorResponse.errorText (e : ErrorResponse) : String :=
  "Failed: " ++ toString e.code ++ " " ++ e.title ++ ": " ++ e.message

/-- Case-folded field keys, for Go's case-insensitive JSON field match. -/
def lowerKey (k : String) : String :=
  ⟨k.data.map Char.toLower⟩

/-- Decoding one object member into an `ErrorResponse`, following Go's
struct decoding: field tags matched case-insensitively, unknown keys
ignored, `null` leaves the field unchanged, a mismatched type fails. -/
def setErrField (e : ErrorResponse) (k : String) (v : Json) : Option ErrorResponse :=
  if lowerKey k = "message" then
    match v with
    | Json.str s => some { e with message := s }
    | Json.null => some e
    | _ => none
  else if lowerKey k = "code" then
    match v with
    | Json.num n => some { e with code := n }
    | Json.null => some e
    | _ => none
  else if lowerKey k = "title" then
    match v with
    | Json.str s => some { e with title := s }
    | Json.null => some e
    | _ => none
  else some e

/-- `json.Unmarshal` of a JSON value into an `ErrorResponse` field that
currently holds `e0`. -/
def decodeErrorResponseInto (e0 : ErrorResponse) : Json → Option ErrorResponse
  | Json.null => some e0
  | Json.obj fields => fields.foldlM (fun e kv => setErrField e kv.1 kv.2) e0
  | _ => none

def setWrapField (e : ErrorResponse) (k : String) (v : Json) : Option ErrorResponse :=
  if lowerKey k = "error" then decodeErrorResponseInto e v else some e

/-- `json.Unmarshal` of a JSON value into a zero `ErrorWrapper`; the
result is the wrapper's `Error` field. -/
def decodeErrorWrapper : Json → Option ErrorResponse
  | Json.null => some ⟨"", 0, ""⟩
  | Json.obj fields => fields.foldlM (fun e kv => setWrapField e kv.1 kv.2) ⟨"", 0, ""⟩
  | _ => none

/-- `json.Unmarshal(body, &wrappedErr)` of the source, returning
`wrappedErr.Error` on success. -/
def unmarshalErrorWrapper (s : String) : Option ErrorResponse :=
  (parseJson s).bind decodeErrorWrapper

/-! ## `net/http` headers -/

/-- `textproto.CanonicalMIMEHeaderKey`: the first letter and every letter
following a hyphen upper-cased, the rest lower-cased (the keys appearing
in the embedded code are all valid MIME tokens). -/
def canonicalChars : List Char → Bool → List Char
  | [], _ => []
  | c :: cs, up => (if up then c.toUpper else c.toLower) :: canonicalChars cs (c = '-')

def canonicalKey (k : String) : String := ⟨canonicalChars k.data true⟩

/-- `http.Header`: an association list from canonical keys to the ordered
list of values set for that key. -/
def Header := List (String × List String)

instance : DecidableEq Header := by
  unfold Header
  infer_instance

/-- `Header.Add`: append the value to the slot of the canonical key,
creating the slot at the end when absent. -/
def headerAdd : Header → String → String → Header
  | [], k, v => [(canonicalKey k, [v])]
  | e :: rest, k, v =>
    if e.1 = canonicalKey k then (e.1, e.2 ++ [v]) :: rest
    else e :: headerAdd rest k v

/-- All values recorded for a key (the slice `h[CanonicalMIMEHeaderKey k]`). -/
def headerValues (h : Header) (k : String) : List String :=
  match h.find? (fun e => e.1 = canonicalKey k) with
  | some e => e.2
  | none => []

/-- `Header.Get`: first value for the key, `""` when absent. -/
def headerGet (h : Header) (k : String) : String :=
  match headerValues h k with
  | [] => ""
  | v :: _ => v

/-! ## Requests, responses, errors -/

structure HttpRequest where
  method : String
  url : String
  header : Header
  /-- The request body; `none` models a `nil` body reader. -/
  body : Option String
deriving DecidableEq

structure HttpResponse where
  statusCode : Nat
  /-- The status line text (`rawResp.Status`), e.g. `"200 OK"`. -/
  status : String
  header : Header
  body : String
deriving DecidableEq

/-- The error detail embedded in an unexpected-status error: either the
raw response body or the decoded `ErrorResponse` envelope. -/
inductive ErrInfo where
  | raw (body : String) : ErrInfo
  | structured (e : ErrorResponse) : ErrInfo
deriving DecidableEq

/-- Errors crossing the pipeline boundary: `errors.New`-style messages,
`gooseerrors.AddContext` wrappings, and the unexpected-status error
carrying the request URL, status line, extracted detail and payload. -/
inductive GoError where
  | simple (msg : String) : GoError
  | context (msg : String) (cause : GoError) : GoError
  | unexpectedStatus (url : String) (status : String) (info : ErrInfo)
      (payloadInfo : String) : GoError
deriving DecidableEq

/-- The transport (`http.Client.Do`): `Except.error` is a transport-level
execution failure, `Except.ok` a delivered HTTP response. -/
def DoFn := HttpRequest → Except String HttpResponse

/-- The embedded `http.Client`: the `AuthToken` field (its embedded
`http.Client` transport is passed explicitly as a `DoFn`). -/
structure Client where
  authToken : String

/-! ## Request body values (`ReqValue`) and `json.Marshal` -/

mutual

/-- Render a JSON value back to wire text (`json.Marshal` output for the
values representable here). -/
def renderJson : Json → String
  | Json.null => "null"
  | Json.bool true => "true"
  | Json.bool false => "false"
  | Json.num n => toString n
  | Json.decimal raw => raw
  | Json.str s => "\"" ++ s ++ "\""
  | Json.arr elems => "[" ++ renderJsonElems elems ++ "]"
  | Json.obj fields => "\x7b" ++ renderJsonFields fields ++ "\x7d"

def renderJsonElems : List Json → String
  | [] => ""
  | [j] => renderJson j
  | j :: rest => renderJson j ++ "," ++ renderJsonElems rest

def renderJsonFields : List (String × Json) → String
  | [] => ""
  | [kv] => "\"" ++ kv.1 ++ "\":" ++ renderJson kv.2
  | kv :: rest => "\"" ++ kv.1 ++ "\":" ++ renderJson kv.2 ++ "," ++ renderJsonFields rest

end

/-- A Go `interface{}` request value: either a value `json.Marshal` can
encode, or one it cannot (functions, channels, ...). -/
inductive GoValue where
  | json (j : Json) : GoValue
  | unsupported (typeName : String) : GoValue

/-- `json.Marshal` on a request value. -/
def marshalGoValue : GoValue → Except String String
  | GoValue.json j => Except.ok (renderJson j)
  | GoValue.unsupported t => Except.error ("json: unsupported type: " ++ t)

/-! ## `RequestData` -/

/-- The `RequestData` descriptor.  The destination fields model the
pointed-to storage: `respValue = some j` is a non-nil `RespValue`
destination currently holding `j`; `none` is a nil destination (and
likewise for `respData`). -/
structure RequestData where
  reqHeaders : Option Header
  params : Option (List (String × String))
  expectedStatus : List Nat
  reqValue : Option GoValue
  respValue : Option Json
  reqData : Option String
  respData : Option String

/-- `url.Values.Encode` (abstracting percent-escaping and key sorting,
which no embedded theorem depends on). -/
def encodeParams (ps : List (String × String)) : String :=
  String.intercalate "&" (ps.map (fun kv => kv.1 ++ "=" ++ kv.2))

/-! ## `sendRequest` (source lines 145-199) -/

/-- Lines 146-152: merge every value of the caller-supplied extra headers
into the request's headers with `req.Header.Add`. -/
def mergeExtraHeaders (h : Header) (extra : Option Header) : Header :=
  match extra with
  | some eh => eh.foldl (fun acc kv => kv.2.foldl (fun acc2 v => headerAdd acc2 kv.1 v) acc) h
  | none => h

/-- Lines 146-155 of `sendRequest`: extra headers merged, then the
`X-Auth-Token` header added when the client's token is non-empty.  The
result is the request handed to the transport. -/
def prepareRequest (c : Client) (req : HttpRequest) (extra : Option Header) : HttpRequest :=
  let merged : HttpRequest := { req with header := mergeExtraHeaders req.header extra }
  if c.authToken ≠ "" then
    { merged with header := headerAdd merged.header "X-Auth-Token" c.authToken }
  else merged

/-- Lines 161-170: substitute `[http.StatusOK]` for an empty expected
list, then exact-code membership. -/
def statusAccepted (expectedStatus : List Nat) (code : Nat) : Bool :=
  let expected := if expectedStatus.isEmpty then [200] else expectedStatus
  expected.contains code

/-- Lines 173-181: the error info starts as the raw body bytes and is
replaced by the decoded envelope exactly when the declared content type
is `application/json` and `json.Unmarshal` into `ErrorWrapper` succeeds. -/
def extractErrInfo (respHeader : Header) (body : String) : ErrInfo :=
  if headerGet respHeader "Content-Type" = "application/json" then
    match unmarshalErrorWrapper body with
    | some e => ErrInfo.structured e
    | none => ErrInfo.raw body
  else ErrInfo.raw body

/-- Lines 161-198: classify the response status; on an unexpected status
build the unexpected-status error (and return no body), otherwise return
the body.  The source's extra `len(expectedStatus) > 0` guard on line
171 is always true after the empty-list substitution on line 163, so it
has no counterpart here.  Reading the body of a pure response always
succeeds, so the `ReadAll` failure branch has no counterpart either. -/
def handleResponse (reqUrl : String) (expectedStatus : List Nat) (payloadInfo : String)
    (rawResp : HttpResponse) : String × Option GoError :=
  if statusAccepted expectedStatus rawResp.statusCode then (rawResp.body, none)
  else
    ("", some (GoError.unexpectedStatus reqUrl rawResp.status
        (extractErrInfo rawResp.header rawResp.body) payloadInfo))

/-- `sendRequest` (lines 145-199): returns the `(respBody, err)` pair of
the Go function; on every error path `respBody` is its zero value `""`. -/
def sendRequest (c : Client) (doFn : DoFn) (req : HttpRequest) (extraHeaders : Option Header)
    (expectedStatus : List Nat) (payloadInfo : String) : String × Option GoError :=
  let req1 := prepareRequest c req extraHeaders
  match doFn req1 with
  | Except.error e =>
      ("", some (GoError.context "failed executing the request" (GoError.simple e)))
  | Except.ok rawResp => handleResponse req1.url expectedStatus payloadInfo rawResp

/-! ## The typed façade (`JsonRequest`, lines 53-97; `BinaryRequest`, lines 106-138) -/

/-- Lines 77-78: the header values `JsonRequest` sets before dispatch. -/
def jsonBaseHeader : Header :=
  headerAdd (headerAdd [] "Content-Type" "application/json") "Accept" "application/json"

/-- Lines 124-125: the header values `BinaryRequest` sets before dispatch. -/
def binaryBaseHeader : Header :=
  headerAdd (headerAdd [] "Content-Type" "application/octet-stream")
    "Accept" "application/octet-stream"

/-- Lines 80-96 of `JsonRequest`: dispatch and decode a non-empty body
into a non-nil `RespValue` destination.  (The debug `Unmarshal` into a
throwaway `interface{}` and the `fmt.Println` on lines 87-89 have no
effect on the result and are not represented.) -/
def jsonRequestSend (c : Client) (doFn : DoFn) (method url : String) (reqData : RequestData)
    (body : Option String) (payloadInfo : String) : Option GoError × RequestData :=
  let req : HttpRequest := ⟨method, url, jsonBaseHeader, body⟩
  let r := sendRequest c doFn req reqData.reqHeaders reqData.expectedStatus payloadInfo
  match r.2 with
  | some e => (some e, reqData)
  | none =>
    if r.1.length > 0 then
      match reqData.respValue with
      | some _ =>
        (match parseJson r.1 with
         | some j => (none, { reqData with respValue := some j })
         | none =>
           (some (GoError.context ("failed unmarshaling the response body: " ++ r.1)
               (GoError.simple "json unmarshal error")), reqData))
      | none => (none, reqData)
    else (none, reqData)

/-- `JsonRequest` (lines 53-97). -/
def JsonRequest (c : Client) (doFn : DoFn) (method url0 : String) (reqData : RequestData) :
    Option GoError × RequestData :=
  let url := match reqData.params with
    | some ps => url0 ++ "?" ++ encodeParams ps
    | none => url0
  match reqData.reqValue with
  | some v =>
    (match marshalGoValue v with
     | Except.error e =>
       (some (GoError.context "failed marshalling the request body" (GoError.simple e)),
        reqData)
     | Except.ok body => jsonRequestSend c doFn method url reqData (some body) body)
  | none => jsonRequestSend c doFn method url reqData none ""

/-- `BinaryRequest` (lines 106-138). -/
def BinaryRequest (c : Client) (doFn : DoFn) (method url0 : String) (reqData : RequestData) :
    Option GoError × RequestData :=
  let url := match reqData.params with
    | some ps => url0 ++ "?" ++ encodeParams ps
    | none => url0
  let req : HttpRequest := ⟨method, url, binaryBaseHeader, reqData.reqData⟩
  let r := sendRequest c doFn req reqData.reqHeaders reqData.expectedStatus
    (reqData.reqData.getD "")
  match r.2 with
  | some e => (some e, reqData)
  | none =>
    if r.1.length > 0 then
      match reqData.respData with
      | some _ => (none, { reqData with respData := some r.1 })
      | none => (none, reqData)
    else (none, reqData)

/-! ## The Retry Controller

Modelled from the spec: the Retry Controller of spec section 4.2 (and the
throttling/ceiling scenarios of section 8) is implemented by the
`client` package's `SendRequest`, which is not among the provided source
files — only its test (`nova/local_test.go`, `TestRateLimitRetry`,
expecting the diagnostic "Too many requests, retrying in ...") and its
callers (`nova`, `swift`) are.  The definitions below model that missing
retry loop from the spec's words and compose it with the source-embedded
`prepareRequest`/`handleResponse`. -/

/-- Modelled from the spec: "a well-known \"too many requests\" status"
(HTTP 429) signals throttling. -/
def isThrottle (r : HttpResponse) : Bool :=
  r.statusCode == 429

/-- A numeric header value: all digits, non-empty. -/
def parseRetryAfter (s : String) : Option Nat :=
  match s.data with
  | [] => none
  | cs => if cs.all Char.isDigit then some (digitsToNat cs) else none

/-- Modelled from the spec: "the delay is taken from a server-provided
hint if present, else a fixed default" — the `Retry-After` response
header when it parses as a number, else the supplied default. -/
def retryDelay (r : HttpResponse) (defaultDelay : Nat) : Nat :=
  match parseRetryAfter (headerGet r.header "Retry-After") with
  | some d => d
  | none => defaultDelay

/-- Modelled from the spec: "a diagnostic is emitted noting the retry and
the delay" (the test expects the text "Too many requests, retrying in"). -/
def retryNotice (delay : Nat) : String :=
  "Too many requests, retrying in " ++ toString delay ++ "s"

/-- The observable outcome of the retry loop: the last transport result,
the total number of transport attempts, and the emitted diagnostics. -/
structure RetryOutcome where
  response : Except String HttpResponse
  attempts : Nat
  diagnostics : List String

/-- Modelled from the spec: the Attempting/Waiting/Resolved loop of
section 4.2.  From attempt number `attempt`: call the transport; on a
throttling response with `attempt < ceiling`, emit the diagnostic for
the computed delay and re-attempt with `attempt + 1`; otherwise resolve
with the response (a transport error resolves immediately: transport
failures are "not subject to the throttling-retry path", section 7). -/
def retryFrom (doFn : Nat → Except String HttpResponse) (ceiling defaultDelay : Nat)
    (attempt : Nat) (diags : List String) : RetryOutcome :=
  match doFn attempt with
  | Except.error e => ⟨Except.error e, attempt, diags⟩
  | Except.ok resp =>
    if h : isThrottle resp = true ∧ attempt < ceiling then
      retryFrom doFn ceiling defaultDelay (attempt + 1)
        (diags ++ [retryNotice (retryDelay resp defaultDelay)])
    else ⟨Except.ok resp, attempt, diags⟩
termination_by ceiling - attempt
decreasing_by
  exact Nat.sub_succ_lt_self ceiling attempt h.2

/-- The expected diagnostic lines for `k` consecutive throttling
responses starting at attempt `a`. -/
def noticesFrom (resps : Nat → HttpResponse) (defaultDelay a k : Nat) : List String :=
  match k with
  | 0 => []
  | k + 1 => retryNotice (retryDelay (resps a) defaultDelay) :: noticesFrom resps defaultDelay (a + 1) k

/-- Modelled from the spec: the dispatch pipeline with the Retry
Controller in front of status classification — the request is prepared
once (headers merged, token injected), re-issued by the retry loop, and
the resolved response is classified exactly as in the source
`sendRequest`. -/
def sendRequestWithRetry (c : Client) (doFn : Nat → HttpRequest → Except String HttpResponse)
    (req : HttpRequest) (extraHeaders : Option Header) (expectedStatus : List Nat)
    (payloadInfo : String) (ceiling defaultDelay : Nat) :
    (String × Option GoError) × RetryOutcome :=
  let req1 := prepareRequest c req extraHeaders
  let outcome := retryFrom (fun i => doFn i req1) ceiling defaultDelay 1 []
  match outcome.response with
  | Except.error e =>
      (("", some (GoError.context "failed executing the request" (GoError.simple e))), outcome)
  | Except.ok rawResp =>
      (handleResponse req1.url expectedStatus payloadInfo rawResp, outcome)

/-! ## Concrete instances used by the witnesses and the counterexample -/

def emptyRD : RequestData :=
  ⟨none, none, [], none, none, none, none⟩

def exReq : HttpRequest := ⟨"GET", "/v1/things", [], none⟩

def okResp : HttpResponse := ⟨200, "200 OK", [], "done"⟩

def throttleResp : HttpResponse :=
  ⟨429, "429 Too Many Requests", [("Retry-After", ["7"])], ""⟩

/-- A transport throttling the first two attempts and succeeding after. -/
def exResps (i : Nat) : HttpResponse :=
  if i ≤ 2 then throttleResp else okResp

def exRetryDo (i : Nat) : HttpRequest → Except String HttpResponse :=
  fun _ => Except.ok (exResps i)

/-- A transport that always throttles. -/
def exThrottleDo (_ : Nat) : HttpRequest → Except String HttpResponse :=
  fun _ => Except.ok throttleResp

def exOkDo : DoFn := fun _ => Except.ok okResp

def exErrDo : DoFn := fun _ => Except.error "connection refused"

def exCreatedResp : HttpResponse := ⟨201, "201 Created", [], "made"⟩

def exCreatedDo : DoFn := fun _ => Except.ok exCreatedResp

/-- A success response with an empty body, for the C5 counterexample. -/
def emptyBodyResp : HttpResponse := ⟨200, "200 OK", [], ""⟩

def emptyBodyDo : DoFn := fun _ => Except.ok emptyBodyResp

/-- A descriptor with a non-nil binary destination currently holding "stale". -/
def staleRD : RequestData :=
  ⟨none, none, [], none, none, none, some "stale"⟩

/-- A descriptor whose request value `json.Marshal` rejects. -/
def badValueRD : RequestData :=
  ⟨none, none, [], some (GoValue.unsupported "chan int"), none, none, none⟩

def jsonEnvelopeBody : String :=
  "\x7b\"error\":\x7b\"message\":\"quota exceeded\",\"code\":413,\"title\":\"Over Limit\"\x7d\x7d"

end Goose

namespace Goose

/-! ## Header lemmas -/

theorem headerValues_headerAdd (h : Header) (k v k' : String) :
    headerValues (headerAdd h k v) k' =
      if canonicalKey k = canonicalKey k' then headerValues h k' ++ [v]
      else headerValues h k' := by
  induction h with
  | nil =>
    by_cases hc : canonicalKey k = canonicalKey k' <;>
      simp [headerAdd, headerValues, List.find?, hc]
  | cons e rest ih =>
    by_cases he : e.1 = canonicalKey k
    · by_cases hc : canonicalKey k = canonicalKey k'
      · simp [headerAdd, headerValues, List.find?, he, hc, he.trans hc]
      · have : ¬ (e.1 = canonicalKey k') := by rw [he]; exact hc
        simp [headerAdd, headerValues, List.find?, he, hc, this]
    · by_cases he' : e.1 = canonicalKey k'
      · have h1 : ¬ (canonicalKey k' = canonicalKey k) := fun hh => he (he'.trans hh)
        have h2 : ¬ (canonicalKey k = canonicalKey k') := fun hh => h1 hh.symm
        simp [headerAdd, headerValues, List.find?, he, he', h1, h2]
      · simpa [headerAdd, headerValues, List.find?, he, he'] using ih

theorem headerValues_addMany (vs : List String) (h : Header) (k k' : String) :
    headerValues (vs.foldl (fun acc v => headerAdd acc k v) h) k' =
      headerValues h k' ++ (if canonicalKey k = canonicalKey k' then vs else []) := by
  induction vs generalizing h with
  | nil => simp
  | cons v rest ih =>
    rw [List.foldl_cons, ih, headerValues_headerAdd]
    by_cases hc : canonicalKey k = canonicalKey k' <;> simp [hc]

theorem headerValues_merge (extra : Header) (h : Header) (k' : String) :
    headerValues (mergeExtraHeaders h (some extra)) k' =
      headerValues h k' ++
        ((extra.filter (fun kv => canonicalKey kv.1 == canonicalKey k')).map Prod.snd).flatten := by
  induction extra generalizing h with
  | nil => simp [mergeExtraHeaders]
  | cons kv rest ih =>
    have hstep :
        mergeExtraHeaders h (some (kv :: rest)) =
          mergeExtraHeaders (kv.2.foldl (fun acc2 v => headerAdd acc2 kv.1 v) h) (some rest) := by
      simp [mergeExtraHeaders]
    rw [hstep, ih, headerValues_addMany]
    by_cases hc : canonicalKey kv.1 = canonicalKey k' <;>
      simp [hc, List.filter_cons]

/-! ## Retry-loop lemmas -/

theorem retryFrom_succeeds (doFn : Nat → Except String HttpResponse)
    (resps : Nat → HttpResponse) (ceiling d : Nat)
    (hdo : ∀ i, doFn i = Except.ok (resps i)) :
    ∀ k a diags, (∀ i, a ≤ i → i < a + k → isThrottle (resps i) = true) →
      isThrottle (resps (a + k)) = false → a + k ≤ ceiling →
      retryFrom doFn ceiling d a diags =
        ⟨Except.ok (resps (a + k)), a + k, diags ++ noticesFrom resps d a k⟩ := by
  intro k
  induction k with
  | zero =>
    intro a diags _ hs _
    rw [retryFrom, hdo a]
    rw [Nat.add_zero] at hs
    simp [hs, noticesFrom]
  | succ k ih =>
    intro a diags hth hs hle
    have hta : isThrottle (resps a) = true := hth a (Nat.le_refl a) (by omega)
    have hlt : a < ceiling := by omega
    rw [retryFrom, hdo a]
    dsimp only
    rw [dif_pos ⟨hta, hlt⟩]
    have := ih (a + 1) (diags ++ [retryNotice (retryDelay (resps a) d)])
      (fun i h1 h2 => hth i (by omega) (by omega))
      (by have : a + 1 + k = a + (k + 1) := by omega
          rw [this]; exact hs)
      (by omega)
    rw [this]
    have harith : a + 1 + k = a + (k + 1) := by omega
    rw [harith]
    simp [noticesFrom]

theorem retryFrom_exhausts (doFn : Nat → Except String HttpResponse)
    (resps : Nat → HttpResponse) (ceiling d : Nat)
    (hdo : ∀ i, doFn i = Except.ok (resps i))
    (hth : ∀ i, isThrottle (resps i) = true) :
    ∀ n a diags, a + n = ceiling →
      retryFrom doFn ceiling d a diags =
        ⟨Except.ok (resps ceiling), ceiling, diags ++ noticesFrom resps d a n⟩ := by
  intro n
  induction n with
  | zero =>
    intro a diags hsum
    rw [Nat.add_zero] at hsum
    subst hsum
    rw [retryFrom, hdo a]
    dsimp only
    have : ¬ (isThrottle (resps a) = true ∧ a < a) := fun hh => Nat.lt_irrefl a hh.2
    rw [dif_neg this]
    simp [noticesFrom]
  | succ n ih =>
    intro a diags hsum
    have hlt : a < ceiling := by omega
    rw [retryFrom, hdo a]
    dsimp only
    rw [dif_pos ⟨hth a, hlt⟩]
    rw [ih (a + 1) (diags ++ [retryNotice (retryDelay (resps a) d)]) (by omega)]
    simp [noticesFrom]

/-! ## The claims -/

/-- C2: for every non-success error response, the surfaced detail is the
decoded `(message, code, title)` triple exactly when the declared content
type is `application/json` and the body decodes as the
`\x7b"error": \x7b"message", "code", "title"\x7d\x7d` envelope; for any
other content type or any decode failure the detail is the raw body
verbatim (extraction is a total function and never fails); including the
spec's two concrete error-body scenarios. -/
theorem C2_error_extraction :
    (∀ (h : Header) (b : String) (e : ErrorResponse),
      extractErrInfo h b = ErrInfo.structured e ↔
        (headerGet h "Content-Type" = "application/json" ∧
         unmarshalErrorWrapper b = some e)) ∧
    (∀ (h : Header) (b : String),
      (headerGet h "Content-Type" = "application/json" → unmarshalErrorWrapper b = none) →
      extractErrInfo h b = ErrInfo.raw b) ∧
    extractErrInfo [("Content-Type", ["application/json"])] jsonEnvelopeBody =
      ErrInfo.structured ⟨"quota exceeded", 413, "Over Limit"⟩ ∧
    extractErrInfo [("Content-Type", ["text/plain"])] "boom" = ErrInfo.raw "boom" := by
  refine ⟨?_, ?_, rfl, rfl⟩
  · intro h b e
    by_cases hct : headerGet h "Content-Type" = "application/json"
    · cases hu : unmarshalErrorWrapper b <;>
        simp [extractErrInfo, hct, hu]
    · simp [extractErrInfo, hct]
  · intro h b hcond
    by_cases hct : headerGet h "Content-Type" = "application/json"
    · simp [extractErrInfo, hct, hcond hct]
    · simp [extractErrInfo, hct]

/-- C2 witness: the general characterisation applied to the spec's
concrete JSON-envelope scenario. -/
theorem C2_error_extraction_witness :
    extractErrInfo [("Content-Type", ["application/json"])] jsonEnvelopeBody =
      ErrInfo.structured ⟨"quota exceeded", 413, "Over Limit"⟩ ↔
    (headerGet [("Content-Type", ["application/json"])] "Content-Type" = "application/json" ∧
     unmarshalErrorWrapper jsonEnvelopeBody = some ⟨"quota exceeded", 413, "Over Limit"⟩) :=
  C2_error_extraction.1 [("Content-Type", ["application/json"])] jsonEnvelopeBody
    ⟨"quota exceeded", 413, "Over Limit"⟩

/-- C3: with an empty `ExpectedStatus` list a response is successful iff
its code is exactly 200; with a non-empty list, success is exact-code
membership (no range matching), and `sendRequest` surfaces an
unexpected-status error exactly when the classifier rejects the code. -/
theorem C3_status_classification (es : List Nat) (code : Nat) (c : Client) (doFn : DoFn)
    (req : HttpRequest) (extra : Option Header) (p : String) (resp : HttpResponse)
    (hdo : ∀ q, doFn q = Except.ok resp) :
    (statusAccepted [] code = true ↔ code = 200) ∧
    (es ≠ [] → (statusAccepted es code = true ↔ code ∈ es)) ∧
    sendRequest c doFn req extra es p =
      (if statusAccepted es resp.statusCode then (resp.body, none)
       else ("", some (GoError.unexpectedStatus (prepareRequest c req extra).url resp.status
          (extractErrInfo resp.header resp.body) p))) := by
  refine ⟨?_, ?_, ?_⟩
  · constructor
    · intro hc
      simpa [statusAccepted] using hc
    · intro hc
      simp [statusAccepted, hc]
  · intro hne
    have hempty : es.isEmpty = false := by
      cases es with
      | nil => exact absurd rfl hne
      | cons a as => rfl
    simp [statusAccepted, hempty]
  · simp [sendRequest, hdo, handleResponse]

/-- C3 witness: with an empty allowed list, 200 is accepted and the
success code 201 ("Created") is rejected; with the list `[202]`,
membership decides. -/
theorem C3_status_classification_witness :
    (statusAccepted [] 201 = true ↔ (201 : Nat) = 200) ∧
    ((statusAccepted [202] 201 = true ↔ (201 : Nat) ∈ [202]) ∧
     sendRequest ⟨""⟩ exCreatedDo exReq none [202] "" =
      (if statusAccepted [202] exCreatedResp.statusCode then (exCreatedResp.body, none)
       else ("", some (GoError.unexpectedStatus (prepareRequest ⟨""⟩ exReq none).url
          exCreatedResp.status
          (extractErrInfo exCreatedResp.header exCreatedResp.body) "")))) :=
  ⟨(C3_status_classification [] 201 ⟨""⟩ exCreatedDo exReq none "" exCreatedResp
      (fun _ => rfl)).1,
   (C3_status_classification [202] 201 ⟨""⟩ exCreatedDo exReq none "" exCreatedResp
      (fun _ => rfl)).2.1 (by decide),
   (C3_status_classification [202] 201 ⟨""⟩ exCreatedDo exReq none "" exCreatedResp
      (fun _ => rfl)).2.2⟩

/-- C4: with a non-empty auth token the dispatched request carries the
`X-Auth-Token` header holding the token, appended after the caller's
extra headers were merged; with an empty token the client adds no auth
header; and the transport is invoked exactly on the prepared request. -/
theorem C4_auth_token_injection (c : Client) (req : HttpRequest) (extra : Option Header)
    (doFn : DoFn) (es : List Nat) (p : String) :
    (c.authToken ≠ "" →
      headerValues (prepareRequest c req extra).header "X-Auth-Token" =
        headerValues (mergeExtraHeaders req.header extra) "X-Auth-Token" ++ [c.authToken]) ∧
    (c.authToken = "" →
      (prepareRequest c req extra).header = mergeExtraHeaders req.header extra) ∧
    sendRequest c doFn req extra es p =
      (match doFn (prepareRequest c req extra) with
       | Except.error e =>
           ("", some (GoError.context "failed executing the request" (GoError.simple e)))
       | Except.ok rawResp =>
           handleResponse (prepareRequest c req extra).url es p rawResp) := by
  refine ⟨?_, ?_, rfl⟩
  · intro htok
    simp [prepareRequest, htok, headerValues_headerAdd]
  · intro htok
    simp [prepareRequest, htok]

/-- C4 witness: with token "tok" and one extra header the prepared
request's `X-Auth-Token` values end with the token. -/
theorem C4_auth_token_injection_witness :
    headerValues (prepareRequest ⟨"tok"⟩ exReq (some [("X-Extra", ["1"])])).header
        "X-Auth-Token" =
      headerValues (mergeExtraHeaders exReq.header (some [("X-Extra", ["1"])]))
        "X-Auth-Token" ++ ["tok"] :=
  (C4_auth_token_injection ⟨"tok"⟩ exReq (some [("X-Extra", ["1"])]) exOkDo [] "").1
    (by decide)

/-- C9: merging caller-supplied extra headers never removes or replaces
the façade-set `Content-Type`/`Accept` values: after `sendRequest` merges
the extras (and possibly injects the auth token), the JSON façade's
request still lists `application/json` first for both headers, and the
binary façade's still lists `application/octet-stream` first, with the
caller's values for the same header name appended after it. -/
theorem C9_header_merge_preserves_facade_headers (c : Client) (extra : Header)
    (m u : String) (b : Option String) :
    headerValues (prepareRequest c ⟨m, u, jsonBaseHeader, b⟩ (some extra)).header
        "Content-Type" =
      "application/json" ::
        ((extra.filter (fun kv => canonicalKey kv.1 == canonicalKey "Content-Type")).map
          Prod.snd).flatten ∧
    headerValues (prepareRequest c ⟨m, u, jsonBaseHeader, b⟩ (some extra)).header "Accept" =
      "application/json" ::
        ((extra.filter (fun kv => canonicalKey kv.1 == canonicalKey "Accept")).map
          Prod.snd).flatten ∧
    headerValues (prepareRequest c ⟨m, u, binaryBaseHeader, b⟩ (some extra)).header
        "Content-Type" =
      "application/octet-stream" ::
        ((extra.filter (fun kv => canonicalKey kv.1 == canonicalKey "Content-Type")).map
          Prod.snd).flatten ∧
    headerValues (prepareRequest c ⟨m, u, binaryBaseHeader, b⟩ (some extra)).header "Accept" =
      "application/octet-stream" ::
        ((extra.filter (fun kv => canonicalKey kv.1 == canonicalKey "Accept")).map
          Prod.snd).flatten := by
  have hbase1 : headerValues jsonBaseHeader "Content-Type" = ["application/json"] := rfl
  have hbase2 : headerValues jsonBaseHeader "Accept" = ["application/json"] := rfl
  have hbase3 : headerValues binaryBaseHeader "Content-Type" = ["application/octet-stream"] := rfl
  have hbase4 : headerValues binaryBaseHeader "Accept" = ["application/octet-stream"] := rfl
  have htok1 : ¬ (canonicalKey "X-Auth-Token" = canonicalKey "Content-Type") := by decide
  have htok2 : ¬ (canonicalKey "X-Auth-Token" = canonicalKey "Accept") := by decide
  by_cases htok : c.authToken ≠ "" <;>
    refine ⟨?_, ?_, ?_, ?_⟩ <;>
      simp [prepareRequest, htok, headerValues_headerAdd, htok1, htok2, headerValues_merge,
        hbase1, hbase2, hbase3, hbase4]

theorem length_pos_of_ne_empty (s : String) (h : s ≠ "") : 0 < s.length := by
  cases s with
  | mk data =>
    cases data with
    | nil => exact absurd rfl h
    | cons c cs => simp [String.length]

/-- C5 counterexample: a `BinaryRequest` with a non-nil `RespData`
destination that resolves successfully (nil error) after the transport
returned an *empty* body leaves the destination holding its previous
contents, which differ from the returned byte sequence — so the claim as
stated fails. -/
theorem C5_binary_counterexample :
    (BinaryRequest ⟨""⟩ emptyBodyDo "GET" "/obj" staleRD).1 = none ∧
    staleRD.respData = some "stale" ∧
    (BinaryRequest ⟨""⟩ emptyBodyDo "GET" "/obj" staleRD).2.respData ≠
      some emptyBodyResp.body := by
  refine ⟨rfl, rfl, ?_⟩
  decide

/-- C5 (amended): for every `BinaryRequest` call with a non-nil
`RespData` destination that resolves successfully, if the transport's
response body is non-empty the destination afterwards holds exactly that
byte sequence; if the response body is empty the destination is left
unchanged. -/
theorem C5_binary_passthrough (c : Client) (doFn : DoFn) (m u : String) (rd : RequestData)
    (resp : HttpResponse)
    (hdo : ∀ q, doFn q = Except.ok resp)
    (hacc : statusAccepted rd.expectedStatus resp.statusCode = true)
    (hdst : rd.respData ≠ none) :
    (resp.body ≠ "" →
      BinaryRequest c doFn m u rd = (none, { rd with respData := some resp.body })) ∧
    (resp.body = "" → BinaryRequest c doFn m u rd = (none, rd)) := by
  obtain ⟨old, hold⟩ := Option.ne_none_iff_exists'.mp hdst
  constructor
  · intro hb
    have hlen : 0 < resp.body.length := length_pos_of_ne_empty resp.body hb
    simp [BinaryRequest, sendRequest, hdo, handleResponse, hacc, hold, hlen]
  · intro hb
    simp [BinaryRequest, sendRequest, hdo, handleResponse, hacc, hold, hb]

/-- C5 witness: the amended statement at a concrete non-empty response. -/
theorem C5_binary_passthrough_witness :
    BinaryRequest ⟨""⟩ exOkDo "GET" "/obj" staleRD =
      (none, { staleRD with respData := some okResp.body }) :=
  (C5_binary_passthrough ⟨""⟩ exOkDo "GET" "/obj" staleRD okResp (fun _ => rfl)
      (by decide) (by decide)).1 (by decide)

/-- C7: when the request value cannot be JSON-encoded, `JsonRequest`
returns the marshalling error wrapped with the "failed marshalling the
request body" context, for every transport alike (so no network
interaction can be observed), and the descriptor — destinations
included — is returned untouched. -/
theorem C7_marshal_error_no_dispatch (c : Client) (m u : String) (rd : RequestData)
    (v : GoValue) (e : String)
    (hv : rd.reqValue = some v) (hm : marshalGoValue v = Except.error e) :
    ∀ doFn : DoFn, JsonRequest c doFn m u rd =
      (some (GoError.context "failed marshalling the request body" (GoError.simple e)), rd) := by
  intro doFn
  simp [JsonRequest, hv, hm]

/-- C7 witness: a descriptor carrying an unmarshalable value, under a
transport that would fail the call if it were ever consulted. -/
theorem C7_marshal_error_no_dispatch_witness :
    JsonRequest ⟨""⟩ exErrDo "POST" "/x" badValueRD =
      (some (GoError.context "failed marshalling the request body"
        (GoError.simple "json: unsupported type: chan int")), badValueRD) :=
  C7_marshal_error_no_dispatch ⟨""⟩ "POST" "/x" badValueRD
    (GoValue.unsupported "chan int") "json: unsupported type: chan int" rfl rfl exErrDo

/-- C8: a call resolving with an acceptable status whose matching
destination slot is nil, or whose response body is empty, returns nil
error and performs no decode and no write — the descriptor comes back
exactly as it went in. -/
theorem C8_missing_destination_noop (c : Client) (doFn : DoFn) (m u : String)
    (rd : RequestData) (resp : HttpResponse)
    (hdo : ∀ q, doFn q = Except.ok resp)
    (hacc : statusAccepted rd.expectedStatus resp.statusCode = true)
    (hm : ∀ v, rd.reqValue = some v → ∃ s, marshalGoValue v = Except.ok s) :
    ((rd.respValue = none ∨ resp.body = "") → JsonRequest c doFn m u rd = (none, rd)) ∧
    ((rd.respData = none ∨ resp.body = "") → BinaryRequest c doFn m u rd = (none, rd)) := by
  constructor
  · intro hcase
    cases hrv : rd.reqValue with
    | none =>
      rcases hcase with h1 | h1 <;>
        simp [JsonRequest, hrv, jsonRequestSend, sendRequest, hdo, handleResponse, hacc, h1]
    | some v =>
      obtain ⟨s, hs⟩ := hm v hrv
      rcases hcase with h1 | h1 <;>
        simp [JsonRequest, hrv, hs, jsonRequestSend, sendRequest, hdo, handleResponse, hacc, h1]
  · intro hcase
    rcases hcase with h1 | h1 <;>
      simp [BinaryRequest, sendRequest, hdo, handleResponse, hacc, h1]

/-- C8 witness: nil destinations with a non-empty successful response:
both façades return nil error and the untouched descriptor. -/
theorem C8_missing_destination_noop_witness :
    JsonRequest ⟨""⟩ exOkDo "GET" "/u" emptyRD = (none, emptyRD) ∧
    BinaryRequest ⟨""⟩ exOkDo "GET" "/u" emptyRD = (none, emptyRD) :=
  ⟨(C8_missing_destination_noop ⟨""⟩ exOkDo "GET" "/u" emptyRD okResp (fun _ => rfl)
      (by decide) (fun _ hv => Option.noConfusion hv)).1 (Or.inl rfl),
   (C8_missing_destination_noop ⟨""⟩ exOkDo "GET" "/u" emptyRD okResp (fun _ => rfl)
      (by decide) (fun _ hv => Option.noConfusion hv)).2 (Or.inl rfl)⟩

/-- C10: when `sendRequest` fails because the transport failed or the
response status was unexpected, it returns the empty body alongside the
error, and `JsonRequest`/`BinaryRequest` return the descriptor — hence
both destination slots — completely unchanged. -/
theorem C10_error_paths_empty_body (c : Client) (doFn : DoFn) (req : HttpRequest)
    (extra : Option Header) (p m u : String) (rd : RequestData) (e : String)
    (resp : HttpResponse)
    (h : (∀ q, doFn q = Except.error e) ∨
         ((∀ q, doFn q = Except.ok resp) ∧
          statusAccepted rd.expectedStatus resp.statusCode = false)) :
    (sendRequest c doFn req extra rd.expectedStatus p).1 = "" ∧
    (sendRequest c doFn req extra rd.expectedStatus p).2.isSome = true ∧
    (JsonRequest c doFn m u rd).1.isSome = true ∧
    (JsonRequest c doFn m u rd).2 = rd ∧
    (BinaryRequest c doFn m u rd).1.isSome = true ∧
    (BinaryRequest c doFn m u rd).2 = rd := by
  have hsend : ∀ (req' : HttpRequest) (extra' : Option Header) (p' : String),
      (sendRequest c doFn req' extra' rd.expectedStatus p').1 = "" ∧
      (sendRequest c doFn req' extra' rd.expectedStatus p').2.isSome = true := by
    intro req' extra' p'
    rcases h with herr | ⟨hok, hrej⟩
    · simp [sendRequest, herr]
    · simp [sendRequest, hok, handleResponse, hrej]
  have hjs : ∀ (url : String) (body : Option String) (p' : String),
      (jsonRequestSend c doFn m url rd body p').1.isSome = true ∧
      (jsonRequestSend c doFn m url rd body p').2 = rd := by
    intro url body p'
    obtain ⟨h1, h2⟩ := hsend ⟨m, url, jsonBaseHeader, body⟩ rd.reqHeaders p'
    rcases hr2 : (sendRequest c doFn ⟨m, url, jsonBaseHeader, body⟩ rd.reqHeaders
        rd.expectedStatus p').2 with _ | e2
    · rw [hr2] at h2
      exact absurd h2 (by simp)
    · simp [jsonRequestSend, hr2]
  have hjson : (JsonRequest c doFn m u rd).1.isSome = true ∧
      (JsonRequest c doFn m u rd).2 = rd := by
    cases hrv : rd.reqValue with
    | none => simpa [JsonRequest, hrv] using hjs _ none ""
    | some v =>
      cases hmv : marshalGoValue v with
      | error e2 => simp [JsonRequest, hrv, hmv]
      | ok s => simpa [JsonRequest, hrv, hmv] using hjs _ (some s) s
  have hbin : (BinaryRequest c doFn m u rd).1.isSome = true ∧
      (BinaryRequest c doFn m u rd).2 = rd := by
    cases hp : rd.params with
    | none =>
      obtain ⟨h1, h2⟩ := hsend ⟨m, u, binaryBaseHeader, rd.reqData⟩ rd.reqHeaders
        (rd.reqData.getD "")
      rcases hr2 : (sendRequest c doFn ⟨m, u, binaryBaseHeader, rd.reqData⟩ rd.reqHeaders
          rd.expectedStatus (rd.reqData.getD "")).2 with _ | e2
      · rw [hr2] at h2
        exact absurd h2 (by simp)
      · simp [BinaryRequest, hp, hr2]
    | some ps =>
      obtain ⟨h1, h2⟩ := hsend ⟨m, u ++ "?" ++ encodeParams ps, binaryBaseHeader, rd.reqData⟩
        rd.reqHeaders (rd.reqData.getD "")
      rcases hr2 : (sendRequest c doFn
          ⟨m, u ++ "?" ++ encodeParams ps, binaryBaseHeader, rd.reqData⟩ rd.reqHeaders
          rd.expectedStatus (rd.reqData.getD "")).2 with _ | e2
      · rw [hr2] at h2
        exact absurd h2 (by simp)
      · simp [BinaryRequest, hp, hr2]
  exact ⟨(hsend req extra p).1, (hsend req extra p).2, hjson.1, hjson.2, hbin.1, hbin.2⟩

/-- C10 witness: a failing transport with an empty descriptor. -/
theorem C10_error_paths_empty_body_witness :
    (sendRequest ⟨""⟩ exErrDo exReq none emptyRD.expectedStatus "").1 = "" ∧
    (sendRequest ⟨""⟩ exErrDo exReq none emptyRD.expectedStatus "").2.isSome = true ∧
    (JsonRequest ⟨""⟩ exErrDo "GET" "/u" emptyRD).1.isSome = true ∧
    (JsonRequest ⟨""⟩ exErrDo "GET" "/u" emptyRD).2 = emptyRD ∧
    (BinaryRequest ⟨""⟩ exErrDo "GET" "/u" emptyRD).1.isSome = true ∧
    (BinaryRequest ⟨""⟩ exErrDo "GET" "/u" emptyRD).2 = emptyRD :=
  C10_error_paths_empty_body ⟨""⟩ exErrDo exReq none "" "GET" "/u" emptyRD
    "connection refused" okResp (Or.inl (fun _ => rfl))

/-- C1: when the transport answers "too many requests" on the first `k`
attempts (`k` below the ceiling) and succeeds on attempt `k + 1` with an
acceptable status, the pipeline re-issues the prepared request after
each throttling response, emits one retry diagnostic per retry carrying
the server-suggested (or default) delay, performs exactly `k` retries
(`k + 1` transport attempts), and ultimately returns the success body
with nil error. -/
theorem C1_throttling_retries_then_succeeds
    (c : Client) (doFn : Nat → HttpRequest → Except String HttpResponse)
    (resps : Nat → HttpResponse) (req : HttpRequest) (extra : Option Header)
    (es : List Nat) (p : String) (k ceiling d : Nat)
    (hdo : ∀ i q, doFn i q = Except.ok (resps i))
    (hth : ∀ i, 1 ≤ i → i ≤ k → isThrottle (resps i) = true)
    (hs : isThrottle (resps (k + 1)) = false)
    (hacc : statusAccepted es (resps (k + 1)).statusCode = true)
    (hk : k < ceiling) :
    sendRequestWithRetry c doFn req extra es p ceiling d =
      (((resps (k + 1)).body, none),
       ⟨Except.ok (resps (k + 1)), k + 1, noticesFrom resps d 1 k⟩) := by
  have h1k : 1 + k = k + 1 := by omega
  have hloop := retryFrom_succeeds (fun i => doFn i (prepareRequest c req extra)) resps
    ceiling d (fun i => hdo i _) k 1 []
    (fun i hi1 hi2 => hth i hi1 (by omega))
    (by rw [h1k]; exact hs)
    (by omega)
  rw [h1k] at hloop
  simp [sendRequestWithRetry, hloop, handleResponse, hacc]

/-- C1 witness: a transport throttling attempts 1 and 2 (with a
`Retry-After: 7` hint) and succeeding on attempt 3, under a ceiling of
5: two retries, two diagnostics, final success body "done". -/
theorem C1_throttling_retries_then_succeeds_witness :
    sendRequestWithRetry ⟨""⟩ exRetryDo exReq none [] "" 5 3 =
      (("done", none), ⟨Except.ok okResp, 3, noticesFrom exResps 3 1 2⟩) :=
  C1_throttling_retries_then_succeeds ⟨""⟩ exRetryDo exResps exReq none [] "" 2 5 3
    (fun _ _ => rfl)
    (fun i _ hi2 => by simp [exResps, hi2, isThrottle, throttleResp])
    (by decide) (by decide) (by decide)

/-- C6: when the transport answers "too many requests" on every attempt
(and 429 is not an accepted status), the pipeline terminates after
exactly the configured ceiling of attempts and surfaces an
unexpected-status failure — never a silent success. -/
theorem C6_retry_ceiling_failure
    (c : Client) (doFn : Nat → HttpRequest → Except String HttpResponse)
    (resps : Nat → HttpResponse) (req : HttpRequest) (extra : Option Header)
    (es : List Nat) (p : String) (ceiling d : Nat)
    (hdo : ∀ i q, doFn i q = Except.ok (resps i))
    (hth : ∀ i, isThrottle (resps i) = true)
    (hceil : 1 ≤ ceiling)
    (h429 : es.contains 429 = false) :
    (sendRequestWithRetry c doFn req extra es p ceiling d).2.attempts = ceiling ∧
    (sendRequestWithRetry c doFn req extra es p ceiling d).1 =
      ("", some (GoError.unexpectedStatus (prepareRequest c req extra).url
        (resps ceiling).status (extractErrInfo (resps ceiling).header (resps ceiling).body)
        p)) := by
  have hcode : (resps ceiling).statusCode = 429 := by
    have hh := hth ceiling
    simpa [isThrottle] using hh
  have hrej : statusAccepted es (resps ceiling).statusCode = false := by
    rw [hcode]
    cases es with
    | nil => decide
    | cons a as => simpa [statusAccepted] using h429
  have hloop := retryFrom_exhausts (fun i => doFn i (prepareRequest c req extra)) resps
    ceiling d (fun i => hdo i _) hth (ceiling - 1) 1 [] (by omega)
  constructor
  · simp [sendRequestWithRetry, hloop]
  · simp [sendRequestWithRetry, hloop, handleResponse, hrej]

/-- C6 witness: an always-throttling transport under a ceiling of 3:
three attempts, then the unexpected-status failure. -/
theorem C6_retry_ceiling_failure_witness :
    (sendRequestWithRetry ⟨""⟩ exThrottleDo exReq none [] "" 3 2).2.attempts = 3 ∧
    (sendRequestWithRetry ⟨""⟩ exThrottleDo exReq none [] "" 3 2).1 =
      ("", some (GoError.unexpectedStatus (prepareRequest ⟨""⟩ exReq none).url
        throttleResp.status (extractErrInfo throttleResp.header throttleResp.body) "")) :=
  C6_retry_ceiling_failure ⟨""⟩ exThrottleDo (fun _ => throttleResp) exReq none [] "" 3 2
    (fun _ _ => rfl) (fun _ => rfl) (by decide) rfl

end Goose
